import Mathlib

/-!
Shallow embedding of the Sink-em-Fast game coordinator.

Sources embedded here:
* `src/lib/game-logic.ts` — board rules (`validateShipPlacement`, `checkShot`,
  `validateShot`).
* the socket server (`server.ts` body) — per-code session state machine:
  `reconstructGameState`, `generateGameCode`, and the `create_game`,
  `join_game`, `ships_placed`, `fire_shot` and `disconnect` handlers.
* `src/lib/game-store.ts` — `generateGameCode` (same algorithm as the server copy).

Modelling conventions: JS numbers holding grid coordinates are `Int`
(out-of-bounds and negative values are meaningful); sizes and hit counters are
`Nat`; optional JS fields are `Option`; JS strings are `String`.  In-place
object mutation is modelled by explicit state passing: functions return the
updated value next to their result.  The server is modelled at one fixed game
code (operations on distinct codes touch disjoint entries of the `games`
record), with the in-memory entry and the durable row as an explicit pair.
Nondeterministic inputs (`Math.random`, Prisma-generated ids, `Date.now`) and
the success of each durable write become explicit parameters of the handlers.
-/

namespace SinkEmFast

/-- `GRID_SIZE` from `src/lib/game-logic.ts`. -/
def GRID_SIZE : Int := 10

/-- Ship placement data as stored in the durable store (`ShipPlacementData`
in `src/lib/types.ts`). -/
structure ShipPlacementData where
  id : String
  name : String
  size : Nat
  x : Int
  y : Int
  isVertical : Bool
deriving DecidableEq, Repr

/-- In-memory ship (`Ship` in `src/lib/types.ts`): placement data plus
`isPlaced` and the optional mutable hit counter.  The TS coordinates are typed
`number` and always present at the call sites embedded here, so the
`typeof ship.x === 'number'` presence guard of `validateShipPlacement` is
always satisfied in this model. -/
structure Ship where
  id : String
  name : String
  size : Nat
  x : Int
  y : Int
  isVertical : Bool
  isPlaced : Bool
  hits : Option Nat
deriving DecidableEq, Repr

/-- A shot (`Shot` in `src/lib/types.ts`). -/
structure Shot where
  x : Int
  y : Int
  isHit : Bool
deriving DecidableEq, Repr

/-- The occupied cells scanned by `validateShipPlacement`
(`game-logic.ts:15-17`): cell `i` is `(x, y+i)` for a vertical ship and
`(x+i, y)` for a horizontal one. -/
def placementCells (ship : Ship) : List (Int × Int) :=
  (List.range ship.size).map fun i =>
    (if ship.isVertical then ship.x else ship.x + (i : Int),
     if ship.isVertical then ship.y + (i : Int) else ship.y)

/-- The cell-by-cell loop body of `validateShipPlacement`
(`game-logic.ts:14-32`): bounds check first, then overlap against the cells
already seen; the first failing cell aborts the whole fleet. -/
def validateCells : List (Int × Int) → List (Int × Int) → Bool
  | [], _ => true
  | c :: rest, seen =>
    if c.1 < 0 || GRID_SIZE ≤ c.1 || c.2 < 0 || GRID_SIZE ≤ c.2 then false
    else if seen.contains c then false
    else validateCells rest (c :: seen)

/-- `validateShipPlacement` (`game-logic.ts:5-34`).  The coordinate-presence
guard (lines 7-10) always passes here, see `Ship`. -/
def validateShipPlacement (ships : List Ship) : Bool :=
  validateCells (ships.flatMap placementCells) []

/-- `ProcessShotResult` (`game-logic.ts:36-41`); the optional `isSunk`/`isWin`
are always set by `checkShot`'s return. -/
structure ProcessShotResult where
  isHit : Bool
  hitShipId : Option String
  isSunk : Bool
  isWin : Bool
deriving DecidableEq, Repr

/-- The cells scanned by `checkShot` (`game-logic.ts:52-53`): cell `i` is
`(x, y)` for a vertical ship and `(x+i, y+i)` for a horizontal one — exactly
as written in the source, which differs from `placementCells`. -/
def shotCell (ship : Ship) (i : Nat) : Int × Int :=
  (if ship.isVertical then ship.x else ship.x + (i : Int),
   if ship.isVertical then ship.y else ship.y + (i : Int))

/-- Whether `checkShot`'s inner loop (`game-logic.ts:51-61`) finds `(x,y)`
among the cells it computes for `ship`. -/
def shipHasShotCell (x y : Int) (ship : Ship) : Bool :=
  (List.range ship.size).any fun i => shotCell ship i == (x, y)

/-- The outer loop of `checkShot` (`game-logic.ts:50-63`): the first ship whose
scanned cells contain `(x,y)` gets `hits = (hits || 0) + 1` and the scan stops.
Returns the updated hit ship (if any) and the updated fleet. -/
def checkShotScan (x y : Int) : List Ship → Option Ship × List Ship
  | [] => (none, [])
  | ship :: rest =>
    if shipHasShotCell x y ship then
      let ship' := { ship with hits := some (ship.hits.getD 0 + 1) }
      (some ship', ship' :: rest)
    else
      let (hitShip, rest') := checkShotScan x y rest
      (hitShip, ship :: rest')

/-- `checkShot` (`game-logic.ts:47-76`).  The mutation of the target fleet is
returned as the second component.  `isSunk` compares the hit ship's
incremented counter with its size; `isWin` checks `(hits ?? 0) >= size` over
the (already mutated) fleet, only when `isSunk`. -/
def checkShot (x y : Int) (targetShips : List Ship) : ProcessShotResult × List Ship :=
  let (hitShip, ships') := checkShotScan x y targetShips
  let isSunk := match hitShip with
    | some s => s.hits.getD 0 == s.size
    | none => false
  let isWin := if isSunk then ships'.all fun s => s.size ≤ s.hits.getD 0 else false
  ({ isHit := hitShip.isSome
     hitShipId := hitShip.map (·.id)
     isSunk := isSunk
     isWin := isWin }, ships')

/-- `validateShot` (`game-logic.ts:81-93`). -/
def validateShot (x y : Int) (existingShots : List Shot) : Bool :=
  if x < 0 || GRID_SIZE ≤ x || y < 0 || GRID_SIZE ≤ y then false
  else if existingShots.any fun shot => shot.x == x && shot.y == y then false
  else true

/-- A durable player row (`model Player` in `prisma/schema.prisma`):
stable id, host flag, and the optional JSON ship placements. -/
structure DbPlayer where
  id : String
  isHost : Bool
  shipPlacements : Option (List ShipPlacementData)
deriving DecidableEq, Repr

/-- A durable shot row (`model Shot`), attributed to the firing player;
list order models creation order. -/
structure DbShot where
  x : Int
  y : Int
  isHit : Bool
  playerId : String
deriving DecidableEq, Repr

/-- A durable game row (`model Game`) together with its `players` and `shots`
relations, as fetched by `prisma.game.findUnique(... include ...)`
(`FullDbGame` in `src/lib/types.ts`).  `status` is a plain string column with
values `WAITING`, `PLACING_SHIPS`, `ACTIVE`, `FINISHED`. -/
structure DbGame where
  id : String
  code : String
  status : String
  players : List DbPlayer
  shots : List DbShot
  currentTurnPlayerId : Option String
  winnerPlayerId : Option String
deriving DecidableEq, Repr

/-- `MemoryPlayer` (`src/lib/types.ts`): durable id plus the volatile socket
(transport) identity and the optional in-memory fields.  The JS `isReady`
field is absent-or-boolean and every use is a truthiness test, so it is a
plain `Bool` here (absent ≡ `false`). -/
structure MemoryPlayer where
  id : String
  socketId : String
  ships : Option (List Ship)
  isReady : Bool
  shots : Option (List Shot)
deriving DecidableEq, Repr

/-- The in-memory `Game` (`src/lib/types.ts`).  `status` is a runtime string:
the handlers write the lowercase values `waiting`, `placing_ships`, `active`,
`finished`, but `reconstructGameState` copies the durable (uppercase) string
through an unchecked TS cast, so the field is modelled as `String`. -/
structure Game where
  gameCode : String
  dbGameId : String
  players : List MemoryPlayer
  status : String
  currentTurn : Option String
deriving DecidableEq, Repr

/-- The per-ship replay loop of `reconstructGameState` (server lines 41-48):
for each cell index `i` of the stored placement (using the same cell formula
as `checkShot`), the counter grows by one when some opponent shot with
`isHit` lands on the computed cell. -/
def reconstructShipHits (p : ShipPlacementData) (opponentShots : List DbShot) : Nat :=
  (List.range p.size).countP fun i =>
    let shipX := if p.isVertical then p.x else p.x + (i : Int)
    let shipY := if p.isVertical then p.y else p.y + (i : Int)
    opponentShots.any fun shot => shot.x == shipX && shot.y == shipY && shot.isHit

/-- `reconstructGameState` (server lines 31-69): rebuilds the in-memory game
from the durable row.  Each reconstructed player gets socket id `"unknown"`,
ships with replayed hit counters, readiness derived from placement presence,
and their own recorded shots.  The memory `status` receives the durable
status string unchanged (the TS `as GameStatus` cast). -/
def reconstructGameState (dbGame : DbGame) (gameCode : String) : Game :=
  { gameCode := gameCode
    dbGameId := dbGame.id
    players := dbGame.players.map fun dbPlayer =>
      let ships : Option (List Ship) := dbPlayer.shipPlacements.map fun placements =>
        let opponentShots := dbGame.shots.filter fun shot => shot.playerId != dbPlayer.id
        placements.map fun p =>
          { id := p.id, name := p.name, size := p.size, x := p.x, y := p.y,
            isVertical := p.isVertical, isPlaced := true,
            hits := some (reconstructShipHits p opponentShots) }
      { id := dbPlayer.id
        socketId := "unknown"
        ships := ships
        isReady := dbPlayer.shipPlacements.isSome
        shots := some ((dbGame.shots.filter fun s => s.playerId == dbPlayer.id).map
          fun s => { x := s.x, y := s.y, isHit := s.isHit }) }
    status := dbGame.status
    currentTurn := dbGame.currentTurnPlayerId }

/-- Destination of an outbound transport message: the caller's socket
(`socket.emit`), the rest of the room (`socket.to(gameCode).emit`), or the
whole room (`io.to(gameCode).emit`). -/
inductive Dest where
  | caller
  | others
  | topic
deriving DecidableEq, Repr

/-- Outbound wire events with their payloads (only the fields materialised by
the handlers).  `game_state_full` is the reconciled `ClientGameState` sent on
a rejoin; `game_state_players` and `game_state_turn` are the partial
`game_state` broadcasts of the join and activation paths. -/
inductive Msg where
  | error (message : String)
  | game_created (gameCode playerId : String)
  | game_state_players (gameCode status : String) (playerIds : List String)
  | game_state_full (gameCode playerId : String) (opponentId : Option String)
      (status : String) (ships : Option (List ShipPlacementData))
      (isPlayerTurn : Bool) (playerShots opponentShots : List Shot)
      (winner : Option String)
  | game_state_turn (gameCode status currentTurn : String)
  | opponent_placed_ships
  | shot_result (x y : Int) (isHit : Bool)
  | opponent_shot (x y : Int) (isHit : Bool)
  | ship_sunk (shipId : Option String)
  | game_over (winner : String)
  | opponent_disconnected (disconnectedPlayerId : String)
deriving DecidableEq, Repr

/-- One emitted transport message. -/
structure Emission where
  dest : Dest
  msg : Msg
deriving DecidableEq, Repr

/-- The server's state at one fixed game code: the in-memory registry entry
(`games[code]`) and the durable row for that code. -/
structure ServerState where
  game? : Option Game
  db? : Option DbGame
deriving DecidableEq, Repr

/-- In-place mutation of the player object found for `pid`: JS mutates the
found object, which all aliases (the `players` array) observe. -/
def setPlayer (g : Game) (pid : String) (f : MemoryPlayer → MemoryPlayer) : Game :=
  { g with players := g.players.map fun p => if p.id == pid then f p else p }

/-- The durable `prisma.player.update` setting a player's `shipPlacements`. -/
def dbSavePlacements (db? : Option DbGame) (pid : String)
    (placements : List ShipPlacementData) : Option DbGame :=
  db?.map fun d =>
    { d with players := d.players.map fun p =>
        if p.id == pid then { p with shipPlacements := some placements } else p }

/-- The `create_game` handler (server lines 104-131).  `genCode`, `dbGameId`
and `hostPlayerId` stand for the generated code and the Prisma-generated ids;
`createOk` is whether the durable `game.create` succeeds.  `generateGameCode`
never returns a code live in memory, so the handler is modelled only for a
code without a memory entry; a durable row with the same code makes the
unique-constraint insert throw, which the catch turns into an error event. -/
def createGame (s : ServerState) (genCode dbGameId hostPlayerId : String)
    (sock : String) (createOk : Bool) : ServerState × List Emission :=
  match s.game? with
  | some _ => (s, [])
  | none =>
    if s.db?.isSome || !createOk then
      (s, [⟨.caller, .error "Failed to create game"⟩])
    else
      let dbGame : DbGame :=
        { id := dbGameId, code := genCode, status := "WAITING"
          players := [{ id := hostPlayerId, isHost := true, shipPlacements := none }]
          shots := [], currentTurnPlayerId := none, winnerPlayerId := none }
      let game : Game :=
        { gameCode := genCode, dbGameId := dbGameId
          players := [{ id := hostPlayerId, socketId := sock, ships := none,
                        isReady := false, shots := none }]
          status := "waiting", currentTurn := none }
      ({ game? := some game, db? := some dbGame },
       [⟨.caller, .game_created genCode hostPlayerId⟩])

/-- Step 2 of the `join_game` player-matching loop (server lines 176-198):
scan the durable players in order for the first one that is either missing
from memory or bound to the placeholder socket `"unknown"`; on a match,
rebind (or insert) that player with the caller's socket.  Returns the matched
memory player, the matched durable player, and the updated game. -/
def joinScan (sock : String) (game : Game) :
    List DbPlayer → Option MemoryPlayer × Option DbPlayer × Game
  | [] => (none, none, game)
  | dbP :: rest =>
    match game.players.find? fun p => p.id == dbP.id with
    | some memP =>
      if memP.socketId == "unknown" then
        (some { memP with socketId := sock }, some dbP,
         setPlayer game memP.id fun p => { p with socketId := sock })
      else
        joinScan sock game rest
    | none =>
      let joining : MemoryPlayer :=
        { id := dbP.id, socketId := sock, ships := none, isReady := false, shots := none }
      (some joining, some dbP, { game with players := game.players ++ [joining] })

/-- Rejoin path of `join_game` (server lines 200-238): rebind the caller's
socket on the matched player, refetch the durable row (identical to `dbGame`
here), and emit the reconciled full state (`ClientGameState`) to the caller
only. -/
def joinRejoin (dbGame : DbGame) (gameCode sock : String) (game1 : Game)
    (jp : MemoryPlayer) (dbJp : DbPlayer) : ServerState × List Emission :=
  let game2 := setPlayer game1 jp.id fun p => { p with socketId := sock }
  let opponent := game2.players.find? fun p => p.id != jp.id
  let opponentShots := match opponent with
    | some o => (dbGame.shots.filter fun sh => sh.playerId == o.id).map
        fun sh => ({ x := sh.x, y := sh.y, isHit := sh.isHit } : Shot)
    | none => []
  ({ game? := some game2, db? := some dbGame },
   [⟨.caller, .game_state_full gameCode jp.id (opponent.map (·.id)) dbGame.status
       dbJp.shipPlacements (dbGame.currentTurnPlayerId == some jp.id)
       ((dbGame.shots.filter fun sh => sh.playerId == jp.id).map
         fun sh => { x := sh.x, y := sh.y, isHit := sh.isHit })
       opponentShots dbGame.winnerPlayerId⟩])

/-- New-player path of `join_game` (server lines 240-273), reached when the
matching logic bound nobody.  `game` is the (possibly just reconstructed)
memory entry, which stays registered even when a guard fails. -/
def joinNewPlayer (dbGame : DbGame) (gameCode newPlayerId sock : String)
    (playerCreateOk gameUpdateOk : Bool) (game : Game) : ServerState × List Emission :=
  let s0 : ServerState := { game? := some game, db? := some dbGame }
  if 2 ≤ game.players.length then
    (s0, [⟨.caller, .error ("Game " ++ gameCode ++ " is full.")⟩])
  else if dbGame.status != "WAITING" then
    (s0, [⟨.caller, .error ("Game " ++ gameCode ++ " has already started.")⟩])
  else if !playerCreateOk then
    (s0, [⟨.caller, .error "Failed to join game"⟩])
  else
    let dbGame1 := { dbGame with
      players := dbGame.players ++ [{ id := newPlayerId, isHost := false,
                                      shipPlacements := none }] }
    if !gameUpdateOk then
      ({ game? := some game, db? := some dbGame1 },
       [⟨.caller, .error "Failed to join game"⟩])
    else
      let dbGame2 := { dbGame1 with status := "PLACING_SHIPS" }
      let newPlayer : MemoryPlayer :=
        { id := newPlayerId, socketId := sock, ships := none,
          isReady := false, shots := none }
      let game' := { game with
        players := game.players ++ [newPlayer],
        status := "placing_ships" }
      ({ game? := some game', db? := some dbGame2 },
       [⟨.topic, .game_state_players gameCode "placing_ships"
           (game'.players.map (·.id))⟩])

/-- The `join_game` handler (server lines 133-278).  `gameCode` is the payload
code (the fixed code of this model); `newPlayerId` is the id Prisma would
generate for a genuinely new second player; `playerCreateOk`/`gameUpdateOk`
are the outcomes of the two durable writes of the new-player path.  A durable
row absence is `NotFound`; a finished durable status rejects the join; a
missing memory entry is reconstructed (and registered even when a later guard
fails); then the matching logic — the caller's socket id first, then the scan
for an unbound durable player — either completes a rejoin or falls through to
the new-player path (`joiningPlayer && dbJoiningPlayer` in the source: a
socket-matched player whose id is missing from the durable row also falls
through; a fruitless scan leaves the game unmutated, so the fall-through
always uses the original entry, as the source does). -/
def joinGame (s : ServerState) (gameCode newPlayerId sock : String)
    (playerCreateOk gameUpdateOk : Bool) : ServerState × List Emission :=
  match s.db? with
  | none => (s, [⟨.caller, .error ("Game code " ++ gameCode ++ " not found.")⟩])
  | some dbGame =>
    if dbGame.status == "FINISHED" then
      (s, [⟨.caller, .error ("Game " ++ gameCode ++ " has already finished.")⟩])
    else
      let game := s.game?.getD (reconstructGameState dbGame gameCode)
      match game.players.find? fun p => p.socketId == sock with
      | some jp =>
        match dbGame.players.find? fun p => p.id == jp.id with
        | some dbJp => joinRejoin dbGame gameCode sock game jp dbJp
        | none =>
          joinNewPlayer dbGame gameCode newPlayerId sock playerCreateOk gameUpdateOk game
      | none =>
        match joinScan sock game dbGame.players with
        | (some jp, some dbJp, game1) => joinRejoin dbGame gameCode sock game1 jp dbJp
        | (_, _, _) =>
          joinNewPlayer dbGame gameCode newPlayerId sock playerCreateOk gameUpdateOk game

/-- The `ships_placed` handler (server lines 280-328).  `turnPickFirst` is
`Math.random() < 0.5` (pick `players[0]` as the first-turn player);
`playerUpdateOk`/`gameUpdateOk` are the outcomes of the placement write and of
the activation write.  There is no status guard: the handler only requires the
caller's socket to be bound to a player of the game. -/
def shipsPlaced (s : ServerState) (sock : String) (ships : List Ship)
    (playerUpdateOk gameUpdateOk turnPickFirst : Bool) : ServerState × List Emission :=
  match s.game? with
  | none => (s, [⟨.caller, .error "Game not found"⟩])
  | some game =>
    match game.players.find? fun p => p.socketId == sock with
    | none => (s, [⟨.caller, .error "Player not found in game"⟩])
    | some player =>
      if !validateShipPlacement (ships.map fun sh => { sh with isPlaced := true }) then
        (s, [⟨.caller, .error "Invalid ship placement"⟩])
      else
        let shipPlacementsData : List ShipPlacementData := ships.map fun sh =>
          { id := sh.id, name := sh.name, size := sh.size, x := sh.x, y := sh.y,
            isVertical := sh.isVertical }
        if !playerUpdateOk then
          (s, [⟨.caller, .error "Failed to process ship placement"⟩])
        else
          let db1 := dbSavePlacements s.db? player.id shipPlacementsData
          let game1 := setPlayer game player.id fun p =>
            { p with
              ships := some (ships.map fun sh => { sh with hits := some 0 }),
              isReady := true }
          let allPlayersReady :=
            game1.players.length == 2 && game1.players.all (·.isReady)
          if !allPlayersReady then
            ({ game? := some game1, db? := db1 }, [⟨.others, .opponent_placed_ships⟩])
          else
            match (if turnPickFirst then game1.players.get? 0 else game1.players.get? 1) with
            | none =>
              ({ game? := some game1, db? := db1 },
               [⟨.others, .opponent_placed_ships⟩,
                ⟨.caller, .error "Failed to process ship placement"⟩])
            | some firstPlayer =>
              let game2 := { game1 with
                status := "active",
                currentTurn := some firstPlayer.id }
              if !gameUpdateOk then
                ({ game? := some game2, db? := db1 },
                 [⟨.others, .opponent_placed_ships⟩,
                  ⟨.caller, .error "Failed to process ship placement"⟩])
              else
                let db2 := db1.map fun d =>
                  { d with status := "ACTIVE", currentTurnPlayerId := some firstPlayer.id }
                ({ game? := some game2, db? := db2 },
                 [⟨.others, .opponent_placed_ships⟩,
                  ⟨.topic, .game_state_turn game.gameCode "active" firstPlayer.id⟩])

/-- Turn switch at the end of a non-winning `fire_shot` (server lines 377-382):
memory first, then the durable turn write (whose failure leaves memory
switched and emits the catch error). -/
def switchTurn (game3 : Game) (db1 : Option DbGame) (targetId : String)
    (gameUpdateOk : Bool) (emits : List Emission) : ServerState × List Emission :=
  let game' := { game3 with currentTurn := some targetId }
  if !gameUpdateOk then
    ({ game? := some game', db? := db1 },
     emits ++ [⟨.caller, .error "Failed to process shot"⟩])
  else
    ({ game? := some game',
       db? := db1.map fun d => { d with currentTurnPlayerId := some targetId } },
     emits ++ [])

/-- Body of `fire_shot` after every guard has passed (server lines 348-387):
resolve the shot with `checkShot` (mutating the target's fleet), append the
shot to the shooter's history — both on `game1`, the game with the shooter's
shots array initialised — then persist the shot, emit the results, and either
finish the game (winning blow) or switch the turn. -/
def fireShotResolve (s : ServerState) (game1 : Game) (shooter target : MemoryPlayer)
    (targetShips : List Ship) (x y : Int) (shotCreateOk gameUpdateOk : Bool) :
    ServerState × List Emission :=
  let shotResult := (checkShot x y targetShips).1
  let newShips := (checkShot x y targetShips).2
  let game2 := setPlayer game1 target.id fun p => { p with ships := some newShips }
  let game3 := setPlayer game2 shooter.id fun p =>
    { p with shots := some (p.shots.getD [] ++
        [{ x := x, y := y, isHit := shotResult.isHit }]) }
  if !shotCreateOk then
    ({ game? := some game3, db? := s.db? },
     [⟨.caller, .error "Failed to process shot"⟩])
  else
    let db1 := s.db?.map fun d =>
      { d with shots := d.shots ++
          [{ x := x, y := y, isHit := shotResult.isHit, playerId := shooter.id }] }
    let emits1 : List Emission :=
      [⟨.caller, .shot_result x y shotResult.isHit⟩,
       ⟨.others, .opponent_shot x y shotResult.isHit⟩]
    if shotResult.isSunk then
      let emits2 := emits1 ++ [⟨.caller, .ship_sunk shotResult.hitShipId⟩]
      if shotResult.isWin then
        let game4 := { game3 with status := "finished" }
        if !gameUpdateOk then
          ({ game? := some game4, db? := db1 },
           emits2 ++ [⟨.caller, .error "Failed to process shot"⟩])
        else
          let db2 := db1.map fun d =>
            { d with
              status := "FINISHED",
              winnerPlayerId := some shooter.id,
              currentTurnPlayerId := none }
          ({ game? := some game4, db? := db2 },
           emits2 ++ [⟨.topic, .game_over shooter.id⟩])
      else
        switchTurn game3 db1 target.id gameUpdateOk emits2
    else
      switchTurn game3 db1 target.id gameUpdateOk emits1

/-- The `fire_shot` handler (server lines 330-388).  `shotCreateOk` and
`gameUpdateOk` are the outcomes of the shot-insert write and of the subsequent
game update (finish or turn switch).  The in-memory mutations (`checkShot`'s
hit increment, the appended shot, the shots-array initialisation) happen
before the shot insert, exactly as in the source. -/
def fireShot (s : ServerState) (sock : String) (x y : Int)
    (shotCreateOk gameUpdateOk : Bool) : ServerState × List Emission :=
  match s.game? with
  | none => (s, [⟨.caller, .error "Game not found"⟩])
  | some game =>
    let shooter? := game.players.find? fun p => p.socketId == sock
    let target? := match shooter? with
      | none => game.players.head?
      | some sh => game.players.find? fun p => p.id != sh.id
    match shooter?, target? with
    | some shooter, some target =>
      if game.status != "active" then
        (s, [⟨.caller, .error "Game not active"⟩])
      else if game.currentTurn != some shooter.id then
        (s, [⟨.caller, .error "Not your turn"⟩])
      else
        let game1 := setPlayer game shooter.id fun p =>
          { p with shots := some (p.shots.getD []) }
        let shooterShots := shooter.shots.getD []
        match target.ships with
        | none =>
          ({ s with game? := some game1 },
           [⟨.caller, .error "Target has no ships placed yet"⟩])
        | some targetShips =>
          if !validateShot x y shooterShots then
            ({ s with game? := some game1 },
             [⟨.caller, .error "Invalid shot (out of bounds or already taken)"⟩])
          else
            fireShotResolve s game1 shooter target targetShips x y
              shotCreateOk gameUpdateOk
    | _, _ => (s, [⟨.caller, .error "Players not found"⟩])

/-- The `disconnect` handler (server lines 390-437) restricted to this game
code: the first player bound to the dropped socket gets the placeholder
socket id `"disconnected_" ++ now` (`'disconnected_' + Date.now()`), the rest
of the room is notified, and nothing else changes (the durable store is not
touched; the forfeit block is commented out in the source). -/
def disconnectHandler (s : ServerState) (sock now : String) : ServerState × List Emission :=
  match s.game? with
  | none => (s, [])
  | some game =>
    match game.players.find? fun p => p.socketId == sock with
    | none => (s, [])
    | some p =>
      let game' := setPlayer game p.id fun q =>
        { q with socketId := "disconnected_" ++ now }
      ({ s with game? := some game' }, [⟨.others, .opponent_disconnected p.id⟩])

/-- One inbound event at this game code, with the nondeterministic inputs
(generated ids, random turn pick, clock) and the durable-write outcomes made
explicit. -/
inductive Op where
  | create_game (genCode dbGameId hostPlayerId sock : String) (createOk : Bool)
  | join_game (gameCode newPlayerId sock : String) (playerCreateOk gameUpdateOk : Bool)
  | ships_placed (sock : String) (ships : List Ship)
      (playerUpdateOk gameUpdateOk turnPickFirst : Bool)
  | fire_shot (sock : String) (x y : Int) (shotCreateOk gameUpdateOk : Bool)
  | disconnect (sock now : String)
deriving DecidableEq, Repr

/-- Whether an op is a `ships_placed` request. -/
def Op.isShipsPlaced : Op → Bool
  | .ships_placed _ _ _ _ _ => true
  | _ => false

/-- Dispatch one inbound event to its handler. -/
def step (s : ServerState) : Op → ServerState × List Emission
  | .create_game genCode dbGameId hostPlayerId sock createOk =>
    createGame s genCode dbGameId hostPlayerId sock createOk
  | .join_game gameCode newPlayerId sock playerCreateOk gameUpdateOk =>
    joinGame s gameCode newPlayerId sock playerCreateOk gameUpdateOk
  | .ships_placed sock ships playerUpdateOk gameUpdateOk turnPickFirst =>
    shipsPlaced s sock ships playerUpdateOk gameUpdateOk turnPickFirst
  | .fire_shot sock x y shotCreateOk gameUpdateOk =>
    fireShot s sock x y shotCreateOk gameUpdateOk
  | .disconnect sock now => disconnectHandler s sock now

/-- The server state before any event at this code. -/
def initState : ServerState := { game? := none, db? := none }

/-- Run a list of inbound events, discarding emissions. -/
def runTrace (s : ServerState) (ops : List Op) : ServerState :=
  ops.foldl (fun s op => (step s op).1) s

/-- A server state reachable from the initial state by some event trace. -/
def Reachable (s : ServerState) : Prop :=
  ∃ ops : List Op, runTrace initState ops = s

/-- Position of a status string along the spec's forward order
waiting → placing_ships → active → finished.  Both the lowercase in-memory
spellings and the uppercase durable spellings are ranked, since
`reconstructGameState` copies durable strings into the memory field. -/
def statusRank (st : String) : Nat :=
  if st == "waiting" || st == "WAITING" then 0
  else if st == "placing_ships" || st == "PLACING_SHIPS" then 1
  else if st == "active" || st == "ACTIVE" then 2
  else if st == "finished" || st == "FINISHED" then 3
  else 0

/-- Rank of the in-memory session's status; a state without a memory entry
ranks lowest (there is no session whose status could regress). -/
def stateRank (s : ServerState) : Nat :=
  match s.game? with
  | none => 0
  | some g => statusRank g.status

/-- Base-36 digit characters as produced by JS `Number.prototype.toString(36)`:
`0`-`9` then `a`-`z`. -/
def base36Char (v : Fin 36) : Char :=
  if v.val < 10 then Char.ofNat (48 + v.val) else Char.ofNat (87 + v.val)

/-- `Math.random().toString(36)` for a drawn double in `[0,1)`, represented by
the digit list of its (shortest round-trip) base-36 fractional expansion:
`"0." ++ digits` for a nonzero draw, `"0"` for zero.  The value `0.5`
(exactly representable, digit list `[18]`) yields `"0.i"`. -/
def jsRandomToString36 (digits : List (Fin 36)) : List Char :=
  if digits.isEmpty then ['0'] else '0' :: '.' :: digits.map base36Char

/-- One candidate draw of `generateGameCode`
(`Math.random().toString(36).substring(2, 8).toUpperCase()`,
server line 96 and `game-store.ts:43`). -/
def generateGameCodeOnce (digits : List (Fin 36)) : List Char :=
  (((jsRandomToString36 digits).drop 2).take 6).map Char.toUpper

/-- The `do … while (games[code])` rejection loop of `generateGameCode`
(server lines 93-99, `game-store.ts:40-46`): draw candidates until one is not
the code of a live in-memory game.  The stream of draws is explicit; `none`
models the (probability-zero) case that every provided draw collides. -/
def generateGameCode (live : List (List Char)) : List (List (Fin 36)) → Option (List Char)
  | [] => none
  | digits :: rest =>
    let code := generateGameCodeOnce digits
    if live.contains code then generateGameCode live rest else some code

/-! ## Claims -/

/-- C9: for every shot history and every integer coordinate pair `(x,y)`,
`validateShot` returns `false` exactly when `x` or `y` lies outside `[0,9]`
or `(x,y)` already appears in the history, and returns `true` in every other
case.  (It never mutates the history: in this embedding `validateShot` is a
pure function of the history, mirroring the read-only source.) -/
theorem C9_validateShot_correct (x y : Int) (shots : List Shot) :
    validateShot x y shots = true ↔
      (0 ≤ x ∧ x < 10 ∧ 0 ≤ y ∧ y < 10 ∧ ∀ s ∈ shots, ¬(s.x = x ∧ s.y = y)) := by
  unfold validateShot GRID_SIZE
  split
  · rename_i h
    simp only [Bool.or_eq_true, decide_eq_true_eq] at h
    constructor
    · intro hf; exact absurd hf (by simp)
    · rintro ⟨hx0, hx10, hy0, hy10, -⟩; omega
  · rename_i h
    simp only [Bool.or_eq_true, decide_eq_true_eq] at h
    split
    · rename_i hany
      simp only [List.any_eq_true, Bool.and_eq_true, beq_iff_eq] at hany
      obtain ⟨s, hs, hsx, hsy⟩ := hany
      constructor
      · intro hf; exact absurd hf (by simp)
      · rintro ⟨-, -, -, -, hnone⟩; exact absurd ⟨hsx, hsy⟩ (hnone s hs)
    · rename_i hany
      simp only [List.any_eq_true, Bool.and_eq_true, beq_iff_eq, not_exists, not_and] at hany
      refine ⟨fun _ => ⟨by omega, by omega, by omega, by omega, fun s hs hxy => ?_⟩,
        fun _ => rfl⟩
      exact hany s hs hxy.1 hxy.2

/-- C10: at a coordinate where `checkShot` finds no ship cell (per its own
cell scan), it reports a full miss (`isHit = false`, no `hitShipId`,
`isSunk = false`, `isWin = false`) and returns the fleet unchanged — a miss
never mutates any ship's hit counter. -/
theorem C10_checkShot_miss_frame (x y : Int) (fleet : List Ship)
    (h : ∀ ship ∈ fleet, shipHasShotCell x y ship = false) :
    checkShot x y fleet =
      ({ isHit := false, hitShipId := none, isSunk := false, isWin := false }, fleet) := by
  have hscan : checkShotScan x y fleet = (none, fleet) := by
    induction fleet with
    | nil => rfl
    | cons s rest ih =>
      have hs : shipHasShotCell x y s = false := h s (by simp)
      have hrest : checkShotScan x y rest = (none, rest) :=
        ih fun ship hm => h ship (by simp [hm])
      simp [checkShotScan, hs, hrest]
  simp [checkShot, hscan]

/-- Closed instance of C10: a shot at `(9,9)` against a fleet occupying other
cells misses and leaves the fleet untouched. -/
theorem C10_checkShot_miss_frame_witness :
    checkShot 9 9
      [{ id := "destroyer", name := "Destroyer", size := 2, x := 0, y := 0,
         isVertical := false, isPlaced := true, hits := some 0 }] =
      ({ isHit := false, hitShipId := none, isSunk := false, isWin := false },
       [{ id := "destroyer", name := "Destroyer", size := 2, x := 0, y := 0,
          isVertical := false, isPlaced := true, hits := some 0 }]) :=
  C10_checkShot_miss_frame 9 9 _ (by decide)

/-- A horizontal size-2 ship at origin `(0,0)` — the `destroyer` of the
source's own test suite (`game-logic.test.ts:155`), which expects
`checkShot(1, 0, …)` to hit it. -/
def destroyerEx : Ship :=
  { id := "destroyer", name := "Destroyer", size := 2, x := 0, y := 0,
    isVertical := false, isPlaced := true, hits := some 0 }

/-- C2 (refuted, code bug): `validateShipPlacement`'s occupied cells for the
horizontal destroyer at `(0,0)` are `(0,0)` and `(1,0)`, yet `checkShot` at
the occupied cell `(1,0)` reports a miss and mutates nothing — its cell
formula (`game-logic.ts:53`) swaps the vertical/horizontal cases of the `y`
offset, so it scans `(0,0),(1,1)` instead.  The source's own test
(`game-logic.test.ts:160-168`) expects this shot to hit. -/
theorem C2_checkShot_cell_mismatch :
    placementCells destroyerEx = [(0, 0), (1, 0)] ∧
    shotCell destroyerEx 1 = (1, 1) ∧
    checkShot 1 0 [destroyerEx] =
      ({ isHit := false, hitShipId := none, isSunk := false, isWin := false },
       [destroyerEx]) := by
  refine ⟨by decide, by decide, by decide⟩

/-- The event trace for C1: create, join, both fleets placed (player `B`
places one vertical size-2 ship at `(0,0)`), and one hit shot by player `A`
at `(0,0)`.  No shooter repeats a coordinate. -/
def c1Ops : List Op :=
  [.create_game "CODE" "g1" "A" "sA" true,
   .join_game "CODE" "B" "sB" true true,
   .ships_placed "sA"
     [{ id := "h", name := "H", size := 1, x := 5, y := 5, isVertical := false,
        isPlaced := false, hits := none }] true true true,
   .ships_placed "sB"
     [{ id := "v", name := "V", size := 2, x := 0, y := 0, isVertical := true,
        isPlaced := false, hits := none }] true true true,
   .fire_shot "sA" 0 0 true true]

/-- C1 (refuted, code bug): after the `c1Ops` history the in-memory session —
which resolved the shot with `checkShot` incrementally — records hit counts
`0` for player `A`'s ship and `1` for player `B`'s ship, but
`reconstructGameState` replayed over the durable record produced by the very
same history gives `B`'s ship `2` hits: its cell formula makes every cell of
a vertical ship coincide with the origin, so the single stored hit shot is
counted once per cell index. -/
theorem C1_reconstruction_mismatch :
    ((runTrace initState c1Ops).game?.map fun g =>
        g.players.map fun p => p.ships.map (List.map (·.hits))) =
      some [some [some 0], some [some 1]] ∧
    ((runTrace initState c1Ops).db?.map fun d =>
        (reconstructGameState d "CODE").players.map fun p =>
          p.ships.map (List.map (·.hits))) =
      some [some [some 0], some [some 2]] := by
  refine ⟨by decide, by decide⟩

/-- Trace for C4: create by `A` (socket `sA`), join by `B` (socket `sB`),
then `B`'s connection drops, which the disconnect handler records by setting
`B`'s socket id to `disconnected_111`. -/
def c4Ops : List Op :=
  [.create_game "CODE" "g1" "A" "sA" true,
   .join_game "CODE" "B" "sB" true true,
   .disconnect "sB" "111"]

/-- C4 (refuted, code bug): after `B`'s disconnect was processed, a
`join_game` from a fresh transport identity `sC` does not re-bind `B`'s
durable slot — the matching loop only re-binds slots whose socket id is the
reconstruction placeholder `"unknown"`, not the `disconnected_*` marker the
disconnect handler writes — so the join falls through to the new-player path
and is refused with `Game is full.`, leaving the state unchanged.  The
source's own comments intend such a rejoin to succeed (the matching loop
claims to handle "players joining with a new socket ID", and the disconnect
handler avoids marking the DB precisely because "that prevents rejoin"). -/
theorem C4_rejoin_rejected :
    ((runTrace initState c4Ops).game?.map fun g => g.players.map (·.socketId)) =
      some ["sA", "disconnected_111"] ∧
    step (runTrace initState c4Ops) (.join_game "CODE" "X" "sC" true true) =
      (runTrace initState c4Ops,
       [⟨.caller, .error "Game CODE is full."⟩]) := by
  refine ⟨by decide, by decide⟩

/-- Player `A`'s one-ship fleet used in the finished-game traces. -/
def fleetA : List Ship :=
  [{ id := "h", name := "H", size := 1, x := 5, y := 5, isVertical := false,
     isPlaced := false, hits := none }]

/-- Player `B`'s one-ship fleet used in the finished-game traces. -/
def fleetB : List Ship :=
  [{ id := "b", name := "B1", size := 1, x := 0, y := 0, isVertical := false,
     isPlaced := false, hits := none }]

/-- Trace reaching a finished session: create, join, both placements
(`A` gets the first turn), and `A`'s winning shot at `(0,0)`. -/
def c5Ops : List Op :=
  [.create_game "CODE" "g1" "A" "sA" true,
   .join_game "CODE" "B" "sB" true true,
   .ships_placed "sA" fleetA true true true,
   .ships_placed "sB" fleetB true true true,
   .fire_shot "sA" 0 0 true true]

/-- C5 (refuted): a reachable finished session moves back to `active` when a
player re-sends `ships_placed` — the handler has no status guard, and with
both players ready it re-activates the game, a backward move along
waiting → placing_ships → active → finished. -/
theorem C5_counterexample :
    Reachable (runTrace initState c5Ops) ∧
    ((runTrace initState c5Ops).game?.map (·.status)) = some "finished" ∧
    ((step (runTrace initState c5Ops)
        (.ships_placed "sA" fleetA true true true)).1.game?.map (·.status)) =
      some "active" ∧
    stateRank ((step (runTrace initState c5Ops)
        (.ships_placed "sA" fleetA true true true)).1) <
      stateRank (runTrace initState c5Ops) := by
  refine ⟨⟨c5Ops, rfl⟩, by decide, by decide, by decide⟩

/-- The same finished-session trace, for C6. -/
def c6Ops : List Op :=
  [.create_game "CODE" "g1" "A" "sA" true,
   .join_game "CODE" "B" "sB" true true,
   .ships_placed "sA" fleetA true true true,
   .ships_placed "sB" fleetB true true true,
   .fire_shot "sA" 0 0 true true]

/-- C6 (refuted for its `place_ships` half): on a finished session a
`ships_placed` request does not fail — it emits the `opponent_placed_ships`
notification and the re-activation broadcast instead of any error, and it
changes the session (status back to `active`). -/
theorem C6_counterexample :
    ((runTrace initState c6Ops).game?.map (·.status)) = some "finished" ∧
    (step (runTrace initState c6Ops) (.ships_placed "sB" fleetB true true true)).2 =
      [⟨.others, .opponent_placed_ships⟩,
       ⟨.topic, .game_state_turn "CODE" "active" "A"⟩] ∧
    ((step (runTrace initState c6Ops)
        (.ships_placed "sB" fleetB true true true)).1.game?.map (·.status)) =
      some "active" := by
  refine ⟨by decide, by decide, by decide⟩

/-- Trace reaching an active session with `A` to move. -/
def c3Ops : List Op :=
  [.create_game "CODE" "g1" "A" "sA" true,
   .join_game "CODE" "B" "sB" true true,
   .ships_placed "sA" fleetA true true true,
   .ships_placed "sB" fleetB true true true]

/-- C3 (refuted): when the durable shot write fails, `fire_shot` surfaces only
an error to the caller (nothing is broadcast), but the in-memory session is
NOT left as it was: the hit was already recorded on the target's ship and the
shot appended to the shooter's history before the write. -/
theorem C3_counterexample :
    (step (runTrace initState c3Ops) (.fire_shot "sA" 0 0 false true)).2 =
      [⟨.caller, .error "Failed to process shot"⟩] ∧
    (step (runTrace initState c3Ops) (.fire_shot "sA" 0 0 false true)).1.db? =
      (runTrace initState c3Ops).db? ∧
    ¬((step (runTrace initState c3Ops) (.fire_shot "sA" 0 0 false true)).1.game? =
      (runTrace initState c3Ops).game?) := by
  refine ⟨by decide, by decide, by decide⟩

/-- C8 (refuted for its exact-length part): when `Math.random()` draws `0.5`
— exactly representable, with base-36 string `0.i` — the generated code is
the single character `I`, not 6 characters. -/
theorem C8_counterexample :
    generateGameCode [] [[(18 : Fin 36)]] = some ['I'] ∧
    ¬(['I'].length = 6) := by
  refine ⟨by decide, by decide⟩

/-- The characters a generated game code can contain. -/
def codeAlphabet : List Char := "0123456789ABCDEFGHIJKLMNOPQRSTUVWXYZ".toList

/-- Uppercasing any base-36 digit character lands in `[0-9A-Z]`. -/
theorem base36Char_toUpper_mem : ∀ v : Fin 36, (base36Char v).toUpper ∈ codeAlphabet := by
  decide

/-- A single candidate code has `min 6 d` characters, where `d` is the number
of base-36 fraction digits of the drawn random number. -/
theorem generateGameCodeOnce_length (digits : List (Fin 36)) :
    (generateGameCodeOnce digits).length = min 6 digits.length := by
  unfold generateGameCodeOnce jsRandomToString36
  cases digits with
  | nil => rfl
  | cons a rest =>
    simp only [jsRandomToString36, List.isEmpty_cons, Bool.false_eq_true, if_false,
      generateGameCodeOnce]
    simp [List.length_take, List.length_map]
    omega

/-- Every character of a candidate code is an uppercased base-36 digit. -/
theorem generateGameCodeOnce_mem (digits : List (Fin 36)) :
    ∀ c ∈ generateGameCodeOnce digits, c ∈ codeAlphabet := by
  cases digits with
  | nil =>
    intro c hc
    have hnil : generateGameCodeOnce ([] : List (Fin 36)) = [] := rfl
    rw [hnil] at hc
    exact absurd hc (List.not_mem_nil c)
  | cons a rest =>
    intro c hc
    have hc' : c ∈ (((a :: rest).map base36Char).take 6).map Char.toUpper := hc
    rw [List.mem_map] at hc'
    obtain ⟨ch, hch, rfl⟩ := hc'
    have hmem : ch ∈ (a :: rest).map base36Char := List.mem_of_mem_take hch
    rw [List.mem_map] at hmem
    obtain ⟨v, -, rfl⟩ := hmem
    exact base36Char_toUpper_mem v

/-- C8 (amended): every code `generateGameCode` returns is at most 6
characters long, each drawn from `[0-9A-Z]`, and differs from the code of
every game live in memory at generation time; it is exactly 6 characters
whenever the successful draw's base-36 fraction has at least 6 digits (short
draws such as `0.5` give shorter codes, see the counterexample). -/
theorem C8_amended (live : List (List Char)) (draws : List (List (Fin 36)))
    (code : List Char) (h : generateGameCode live draws = some code) :
    code ∉ live ∧ code.length ≤ 6 ∧ (∀ c ∈ code, c ∈ codeAlphabet) ∧
    ∃ digits ∈ draws, code = generateGameCodeOnce digits ∧
      (6 ≤ digits.length → code.length = 6) := by
  induction draws with
  | nil => cases h
  | cons d rest ih =>
    rw [generateGameCode] at h
    split at h
    · obtain ⟨hnl, hle, hmem, digits, hd, hcode, hlen⟩ := ih h
      exact ⟨hnl, hle, hmem, digits, by simp [hd], hcode, hlen⟩
    · rename_i hcontains
      obtain rfl : generateGameCodeOnce d = code := by injection h
      refine ⟨by simpa using hcontains, ?_, generateGameCodeOnce_mem d, d, by simp, rfl, ?_⟩
      · rw [generateGameCodeOnce_length]; omega
      · intro h6; rw [generateGameCodeOnce_length]; omega

/-- Closed instance of C8 (amended): with an empty live registry and a draw
with seven base-36 digits, the generated code `123456` satisfies all the
amended guarantees. -/
theorem C8_amended_witness :
    (['1', '2', '3', '4', '5', '6'] : List Char) ∉ ([] : List (List Char)) ∧
    (['1', '2', '3', '4', '5', '6'] : List Char).length ≤ 6 ∧
    (∀ c ∈ (['1', '2', '3', '4', '5', '6'] : List Char), c ∈ codeAlphabet) ∧
    ∃ digits ∈ [[(1 : Fin 36), 2, 3, 4, 5, 6, 7]],
      (['1', '2', '3', '4', '5', '6'] : List Char) = generateGameCodeOnce digits ∧
      (6 ≤ digits.length →
        (['1', '2', '3', '4', '5', '6'] : List Char).length = 6) :=
  C8_amended [] [[(1 : Fin 36), 2, 3, 4, 5, 6, 7]] ['1', '2', '3', '4', '5', '6']
    (by decide)

/-- `setPlayer` never touches the game's status. -/
theorem setPlayer_status (g : Game) (pid : String) (f : MemoryPlayer → MemoryPlayer) :
    (setPlayer g pid f).status = g.status := rfl

/-- `setPlayer` never touches the game's turn. -/
theorem setPlayer_currentTurn (g : Game) (pid : String) (f : MemoryPlayer → MemoryPlayer) :
    (setPlayer g pid f).currentTurn = g.currentTurn := rfl

/-- A winning `checkShot` result is always also a sinking one. -/
theorem checkShot_isWin_isSunk (x y : Int) (fleet : List Ship)
    (h : (checkShot x y fleet).1.isWin = true) : (checkShot x y fleet).1.isSunk = true := by
  have hw : (checkShot x y fleet).1.isWin =
      (if (checkShot x y fleet).1.isSunk = true
       then (checkShot x y fleet).2.all fun s => s.size ≤ s.hits.getD 0
       else false) := rfl
  rw [hw] at h
  by_cases hs : (checkShot x y fleet).1.isSunk = true
  · exact hs
  · rw [if_neg hs] at h
    exact absurd h (by simp)

/-- C7: for a valid `fire_shot` in an active session whose durable writes
succeed — the shooter is bound to the calling socket, an opponent exists, it
is the shooter's turn, the opponent's fleet is present and the shot passes
`validateShot` — the outcome is: if the shot is not the winning blow, the
turn (memory and durable) moves to the opponent, who is a different player
(one single flip); if it is the winning blow, the session's status becomes
`finished` (durable `FINISHED`), the shooter is recorded as the durable
winner, the durable `currentTurnPlayerId` is cleared, and the in-memory turn
is not switched to the opponent. -/
theorem C7_turn_and_win (s : ServerState) (g : Game) (d : DbGame)
    (shooter target : MemoryPlayer) (fleet : List Ship) (sock : String) (x y : Int)
    (hg : s.game? = some g) (hdb : s.db? = some d) (hst : g.status = "active")
    (hshooter : g.players.find? (fun p => p.socketId == sock) = some shooter)
    (htarget : g.players.find? (fun p => p.id != shooter.id) = some target)
    (hturn : g.currentTurn = some shooter.id)
    (hships : target.ships = some fleet)
    (hvalid : validateShot x y (shooter.shots.getD []) = true) :
    ((checkShot x y fleet).1.isWin = false →
      ∃ g' d', (fireShot s sock x y true true).1.game? = some g' ∧
        (fireShot s sock x y true true).1.db? = some d' ∧
        g'.currentTurn = some target.id ∧ d'.currentTurnPlayerId = some target.id ∧
        target.id ≠ shooter.id) ∧
    ((checkShot x y fleet).1.isWin = true →
      ∃ g' d', (fireShot s sock x y true true).1.game? = some g' ∧
        (fireShot s sock x y true true).1.db? = some d' ∧
        g'.status = "finished" ∧ d'.status = "FINISHED" ∧
        d'.winnerPlayerId = some shooter.id ∧ d'.currentTurnPlayerId = none ∧
        g'.currentTurn = g.currentTurn) := by
  have hne : target.id ≠ shooter.id := by
    have := List.find?_some htarget
    simpa [bne_iff_ne] using this
  constructor
  · intro hwin
    simp only [fireShot, fireShotResolve, hg, hdb, hshooter, htarget, hst, hturn, hships, hvalid,
      bne_self_eq_false, Bool.false_eq_true, if_false, Bool.not_true, switchTurn]
    split
    · rw [hwin]
      simp only [Bool.false_eq_true, if_false, switchTurn, Bool.not_true,
        Bool.false_eq_true, if_false]
      exact ⟨_, _, rfl, rfl, rfl, rfl, hne⟩
    · simp only [switchTurn, Bool.not_true, Bool.false_eq_true, if_false]
      exact ⟨_, _, rfl, rfl, rfl, rfl, hne⟩
  · intro hwin
    have hsunk := checkShot_isWin_isSunk x y fleet hwin
    simp only [fireShot, fireShotResolve, hg, hdb, hshooter, htarget, hst, hturn, hships, hvalid,
      bne_self_eq_false, Bool.false_eq_true, if_false, Bool.not_true, hsunk, hwin,
      if_true]
    exact ⟨_, _, rfl, rfl, rfl, rfl, rfl, rfl, by
      simp [setPlayer_currentTurn, hturn]⟩

/-- Player `A` of the C7 witness state. -/
def c7A : MemoryPlayer :=
  { id := "A", socketId := "sA",
    ships := some [{ id := "a1", name := "A1", size := 1, x := 9, y := 9,
                     isVertical := false, isPlaced := true, hits := some 0 }],
    isReady := true, shots := some [] }

/-- Player `B`'s fleet in the C7 witness state. -/
def c7FleetB : List Ship :=
  [{ id := "b2", name := "B2", size := 2, x := 0, y := 0, isVertical := false,
     isPlaced := true, hits := some 0 }]

/-- Player `B` of the C7 witness state. -/
def c7B : MemoryPlayer :=
  { id := "B", socketId := "sB", ships := some c7FleetB, isReady := true,
    shots := some [] }

/-- The active in-memory session of the C7 witness. -/
def c7Game : Game :=
  { gameCode := "CODE", dbGameId := "g1", players := [c7A, c7B],
    status := "active", currentTurn := some "A" }

/-- The durable row of the C7 witness. -/
def c7Db : DbGame :=
  { id := "g1", code := "CODE", status := "ACTIVE", players := [], shots := [],
    currentTurnPlayerId := some "A", winnerPlayerId := none }

/-- The C7 witness server state. -/
def c7State : ServerState := { game? := some c7Game, db? := some c7Db }

/-- Closed instance of C7: shooter `A` fires a missing (hence non-winning)
shot at `(5,5)`; the theorem yields the turn flip to `B`. -/
theorem C7_turn_and_win_witness :
    ((checkShot 5 5 c7FleetB).1.isWin = false →
      ∃ g' d', (fireShot c7State "sA" 5 5 true true).1.game? = some g' ∧
        (fireShot c7State "sA" 5 5 true true).1.db? = some d' ∧
        g'.currentTurn = some c7B.id ∧ d'.currentTurnPlayerId = some c7B.id ∧
        c7B.id ≠ c7A.id) ∧
    ((checkShot 5 5 c7FleetB).1.isWin = true →
      ∃ g' d', (fireShot c7State "sA" 5 5 true true).1.game? = some g' ∧
        (fireShot c7State "sA" 5 5 true true).1.db? = some d' ∧
        g'.status = "finished" ∧ d'.status = "FINISHED" ∧
        d'.winnerPlayerId = some c7A.id ∧ d'.currentTurnPlayerId = none ∧
        g'.currentTurn = c7Game.currentTurn) :=
  C7_turn_and_win c7State c7Game c7Db c7A c7B c7FleetB "sA" 5 5
    rfl rfl rfl (by decide) (by decide) rfl rfl (by decide)

/-- C6 (amended): on a finished session a `fire_shot` request always fails
with a single error event to the caller (`Game not active` when both player
slots resolve) and changes neither the session nor the durable record; but a
`ships_placed` request is not rejected: when the caller's socket is bound,
the fleet is valid and the placement write succeeds, it records the fleet
(hit counters zeroed) on the caller's player and notifies the opponent
instead of failing with any state error. -/
theorem C6_amended :
    (∀ (s : ServerState) (g : Game) (sock : String) (x y : Int) (ok1 ok2 : Bool),
      s.game? = some g → g.status = "finished" →
      (step s (.fire_shot sock x y ok1 ok2)).1 = s ∧
      ∃ m, (step s (.fire_shot sock x y ok1 ok2)).2 = [⟨.caller, .error m⟩]) ∧
    (∀ (s : ServerState) (g : Game) (player : MemoryPlayer) (sock : String)
        (ships : List Ship) (ok2 tp : Bool),
      s.game? = some g → g.status = "finished" →
      g.players.find? (fun p => p.socketId == sock) = some player →
      validateShipPlacement (ships.map fun sh => { sh with isPlaced := true }) = true →
      ∃ g', (step s (.ships_placed sock ships true ok2 tp)).1.game? = some g' ∧
        g'.players = (setPlayer g player.id fun p =>
          { p with
            ships := some (ships.map fun sh => { sh with hits := some 0 }),
            isReady := true }).players ∧
        Emission.mk .others .opponent_placed_ships ∈
          (step s (.ships_placed sock ships true ok2 tp)).2) := by
  constructor
  · intro s g sock x y ok1 ok2 hg hfin
    cases hsh : g.players.find? fun p => p.socketId == sock with
    | none =>
      cases hh : g.players.head? with
      | none =>
        refine ⟨?_, "Players not found", ?_⟩ <;> simp [step, fireShot, hg, hsh, hh]
      | some p0 =>
        refine ⟨?_, "Players not found", ?_⟩ <;> simp [step, fireShot, hg, hsh, hh]
    | some shooter =>
      cases ht : g.players.find? fun p => p.id != shooter.id with
      | none =>
        refine ⟨?_, "Players not found", ?_⟩ <;> simp [step, fireShot, hg, hsh, ht]
      | some target =>
        refine ⟨?_, "Game not active", ?_⟩ <;> simp [step, fireShot, hg, hsh, ht, hfin]
  · intro s g player sock ships ok2 tp hg hfin hfind hvalid
    simp only [step, shipsPlaced, hg, hfind, hvalid, Bool.not_true, Bool.false_eq_true,
      if_false]
    split
    · exact ⟨_, rfl, rfl, by simp⟩
    · split
      · exact ⟨_, rfl, rfl, by simp⟩
      · split
        · exact ⟨_, rfl, rfl, by simp⟩
        · exact ⟨_, rfl, rfl, by simp⟩

/-- Player `A` of the C6 witness state. -/
def c6A : MemoryPlayer :=
  { id := "A", socketId := "sA",
    ships := some [{ id := "a1", name := "A1", size := 1, x := 9, y := 9,
                     isVertical := false, isPlaced := true, hits := some 0 }],
    isReady := true, shots := some [] }

/-- Player `B` of the C6 witness state. -/
def c6B : MemoryPlayer :=
  { id := "B", socketId := "sB",
    ships := some [{ id := "b1", name := "B1", size := 1, x := 0, y := 0,
                     isVertical := false, isPlaced := true, hits := some 1 }],
    isReady := true, shots := some [] }

/-- A finished in-memory session for the C6 witness. -/
def c6Game : Game :=
  { gameCode := "CODE", dbGameId := "g1", players := [c6A, c6B],
    status := "finished", currentTurn := some "A" }

/-- The C6 witness server state. -/
def c6State : ServerState := { game? := some c6Game, db? := none }

/-- Closed instance of C6 (amended): on the finished session `c6Game`,
`fire_shot` fails with one caller error and changes nothing, while
`ships_placed` by `B` records the fleet and notifies the opponent. -/
theorem C6_amended_witness :
    ((step c6State (.fire_shot "sA" 1 1 true true)).1 = c6State ∧
     ∃ m, (step c6State (.fire_shot "sA" 1 1 true true)).2 = [⟨.caller, .error m⟩]) ∧
    (∃ g', (step c6State (.ships_placed "sB" fleetB true true true)).1.game? = some g' ∧
      g'.players = (setPlayer c6Game c6B.id fun p =>
        { p with
          ships := some (fleetB.map fun sh => { sh with hits := some 0 }),
          isReady := true }).players ∧
      Emission.mk .others .opponent_placed_ships ∈
        (step c6State (.ships_placed "sB" fleetB true true true)).2) :=
  ⟨C6_amended.1 c6State c6Game "sA" 1 1 true true rfl rfl,
   C6_amended.2 c6State c6Game c6B "sB" fleetB true true rfl rfl (by decide) (by decide)⟩

/-- The durable placement write never changes the game row's status. -/
theorem dbSavePlacements_status (db? : Option DbGame) (pid : String)
    (pl : List ShipPlacementData) :
    (dbSavePlacements db? pid pl).map (·.status) = db?.map (·.status) := by
  cases db? with
  | none => rfl
  | some d => rfl

/-- C3 (amended): when a durable write fails, the error is surfaced only to
the initiating caller and nothing is broadcast after the failure, but the
transition is not rolled back atomically.  (1) A `fire_shot` whose shot
insert fails leaves the durable record unchanged and emits exactly one caller
error, yet the in-memory session already holds the appended shot on the
shooter and `checkShot`'s mutation of the target fleet.  (2) A `ships_placed`
whose placement write fails does abort atomically: state unchanged, one
caller error.  (3) A `ships_placed` whose placement write succeeds but whose
activation write fails leaves the session activated in memory (status
`active`) while the durable status is not advanced, with the opponent already
notified before the error. -/
theorem C3_amended :
    (∀ (s : ServerState) (g : Game) (shooter target : MemoryPlayer)
        (fleet : List Ship) (sock : String) (x y : Int) (ok2 : Bool),
      s.game? = some g → g.status = "active" →
      g.players.find? (fun p => p.socketId == sock) = some shooter →
      g.players.find? (fun p => p.id != shooter.id) = some target →
      g.currentTurn = some shooter.id →
      target.ships = some fleet →
      validateShot x y (shooter.shots.getD []) = true →
      (fireShot s sock x y false ok2).1.db? = s.db? ∧
      (fireShot s sock x y false ok2).2 =
        [⟨.caller, .error "Failed to process shot"⟩] ∧
      ∃ g', (fireShot s sock x y false ok2).1.game? = some g' ∧
        (∃ p ∈ g'.players, p.id = shooter.id ∧
          p.shots = some (shooter.shots.getD [] ++
            [{ x := x, y := y, isHit := (checkShot x y fleet).1.isHit }])) ∧
        ∃ q ∈ g'.players, q.id = target.id ∧ q.ships = some (checkShot x y fleet).2) ∧
    (∀ (s : ServerState) (g : Game) (player : MemoryPlayer) (sock : String)
        (ships : List Ship) (ok2 tp : Bool),
      s.game? = some g →
      g.players.find? (fun p => p.socketId == sock) = some player →
      validateShipPlacement (ships.map fun sh => { sh with isPlaced := true }) = true →
      step s (.ships_placed sock ships false ok2 tp) =
        (s, [⟨.caller, .error "Failed to process ship placement"⟩])) ∧
    (∀ (s : ServerState) (g : Game) (player : MemoryPlayer) (sock : String)
        (ships : List Ship) (tp : Bool),
      s.game? = some g →
      g.players.find? (fun p => p.socketId == sock) = some player →
      validateShipPlacement (ships.map fun sh => { sh with isPlaced := true }) = true →
      ((setPlayer g player.id fun p =>
          { p with
            ships := some (ships.map fun sh => { sh with hits := some 0 }),
            isReady := true }).players.length == 2 &&
        (setPlayer g player.id fun p =>
          { p with
            ships := some (ships.map fun sh => { sh with hits := some 0 }),
            isReady := true }).players.all (·.isReady)) = true →
      (∃ g', (step s (.ships_placed sock ships true false tp)).1.game? = some g' ∧
          g'.status = "active") ∧
      (step s (.ships_placed sock ships true false tp)).1.db?.map (·.status) =
        s.db?.map (·.status) ∧
      (step s (.ships_placed sock ships true false tp)).2 =
        [⟨.others, .opponent_placed_ships⟩,
         ⟨.caller, .error "Failed to process ship placement"⟩]) := by
  refine ⟨?_, ?_, ?_⟩
  · intro s g shooter target fleet sock x y ok2 hg hst hshooter htarget hturn hships hvalid
    have hpred := List.find?_some htarget
    have hne : (shooter.id == target.id) = false := by
      simp only [bne_iff_ne] at hpred
      exact beq_eq_false_iff_ne.mpr (Ne.symm hpred)
    have hneT : (target.id == shooter.id) = false := by
      simp only [bne_iff_ne] at hpred
      exact beq_eq_false_iff_ne.mpr hpred
    have hmem : shooter ∈ g.players := List.mem_of_find?_eq_some hshooter
    have hmemT : target ∈ g.players := List.mem_of_find?_eq_some htarget
    refine ⟨?_, ?_, ?_⟩
    · simp only [fireShot, fireShotResolve, hg, hshooter, htarget, hst, hturn, hships, hvalid,
        bne_self_eq_false, Bool.false_eq_true, if_false, Bool.not_true, Bool.not_false,
        if_true]
    · simp only [fireShot, fireShotResolve, hg, hshooter, htarget, hst, hturn, hships, hvalid,
        bne_self_eq_false, Bool.false_eq_true, if_false, Bool.not_true, Bool.not_false,
        if_true]
    · simp only [fireShot, fireShotResolve, hg, hshooter, htarget, hst, hturn, hships, hvalid,
        bne_self_eq_false, Bool.false_eq_true, if_false, Bool.not_true, Bool.not_false,
        if_true, setPlayer]
      refine ⟨_, rfl, ⟨_, List.mem_map_of_mem _ (List.mem_map_of_mem _
        (List.mem_map_of_mem _ hmem)), ?_⟩, _, List.mem_map_of_mem _ (List.mem_map_of_mem _
        (List.mem_map_of_mem _ hmemT)), ?_⟩
      · simp [hne]
      · simp [hneT]
  · intro s g player sock ships ok2 tp hg hfind hvalid
    simp [step, shipsPlaced, hg, hfind, hvalid]
  · intro s g player sock ships tp hg hfind hvalid hready
    have hlen : (setPlayer g player.id fun p =>
        { p with
          ships := some (ships.map fun sh => { sh with hits := some 0 }),
          isReady := true }).players.length = 2 := by
      have := (Bool.and_eq_true _ _).mp hready
      simpa using this.1
    obtain ⟨a, b, hab⟩ := List.length_eq_two.mp hlen
    rw [hab] at hready
    refine ⟨?_, ?_, ?_⟩ <;>
      [skip; skip; skip] <;>
      · simp only [step, shipsPlaced, hg, hfind, hvalid, Bool.not_true, Bool.false_eq_true,
          if_false, Bool.not_false, if_true, hab, hready]
        cases tp with
        | false =>
          simp only [List.get?, Bool.false_eq_true, if_false]
          try first
          | exact ⟨_, rfl, rfl⟩
          | exact dbSavePlacements_status _ _ _
          | rfl
        | true =>
          simp only [List.get?, if_true]
          try first
          | exact ⟨_, rfl, rfl⟩
          | exact dbSavePlacements_status _ _ _
          | rfl

/-- Player `A`'s fleet (as submitted) in the C3 witness. -/
def c3FleetA : List Ship :=
  [{ id := "a1", name := "A1", size := 1, x := 9, y := 9, isVertical := false,
     isPlaced := false, hits := none }]

/-- Player `B`'s in-memory fleet in the C3 witness. -/
def c3FleetB : List Ship :=
  [{ id := "b1", name := "B1", size := 2, x := 0, y := 0, isVertical := false,
     isPlaced := true, hits := some 0 }]

/-- Player `A` of the C3 witness state. -/
def c3A : MemoryPlayer :=
  { id := "A", socketId := "sA",
    ships := some (c3FleetA.map fun sh => { sh with isPlaced := true, hits := some 0 }),
    isReady := true, shots := some [] }

/-- Player `B` of the C3 witness state. -/
def c3B : MemoryPlayer :=
  { id := "B", socketId := "sB", ships := some c3FleetB, isReady := true,
    shots := some [] }

/-- The active in-memory session of the C3 witness. -/
def c3Game : Game :=
  { gameCode := "CODE", dbGameId := "g1", players := [c3A, c3B],
    status := "active", currentTurn := some "A" }

/-- The C3 witness server state. -/
def c3St : ServerState :=
  { game? := some c3Game
    db? := some { id := "g1", code := "CODE", status := "ACTIVE", players := [],
                  shots := [], currentTurnPlayerId := some "A", winnerPlayerId := none } }

/-- Closed instance of C3 (amended) covering all three parts at the active
state `c3St`. -/
theorem C3_amended_witness :
    ((fireShot c3St "sA" 0 0 false true).1.db? = c3St.db? ∧
     (fireShot c3St "sA" 0 0 false true).2 =
       [⟨.caller, .error "Failed to process shot"⟩] ∧
     ∃ g', (fireShot c3St "sA" 0 0 false true).1.game? = some g' ∧
       (∃ p ∈ g'.players, p.id = c3A.id ∧
         p.shots = some (c3A.shots.getD [] ++
           [{ x := 0, y := 0, isHit := (checkShot 0 0 c3FleetB).1.isHit }])) ∧
       ∃ q ∈ g'.players, q.id = c3B.id ∧ q.ships = some (checkShot 0 0 c3FleetB).2) ∧
    (step c3St (.ships_placed "sA" c3FleetA false true true) =
      (c3St, [⟨.caller, .error "Failed to process ship placement"⟩])) ∧
    ((∃ g', (step c3St (.ships_placed "sA" c3FleetA true false true)).1.game? = some g' ∧
        g'.status = "active") ∧
     (step c3St (.ships_placed "sA" c3FleetA true false true)).1.db?.map (·.status) =
       c3St.db?.map (·.status) ∧
     (step c3St (.ships_placed "sA" c3FleetA true false true)).2 =
       [⟨.others, .opponent_placed_ships⟩,
        ⟨.caller, .error "Failed to process ship placement"⟩]) :=
  ⟨C3_amended.1 c3St c3Game c3A c3B c3FleetB "sA" 0 0 true rfl rfl (by decide)
      (by decide) rfl rfl (by decide),
   C3_amended.2.1 c3St c3Game c3A "sA" c3FleetA true true rfl (by decide) (by decide),
   C3_amended.2.2 c3St c3Game c3A "sA" c3FleetA true rfl (by decide) (by decide)
      (by decide)⟩

/-- The join matching scan never changes the game's status. -/
theorem joinScan_status (sock : String) (g : Game) :
    ∀ l, ((joinScan sock g l).2.2).status = g.status := by
  intro l
  induction l with
  | nil => rfl
  | cons dbP rest ih =>
    unfold joinScan
    cases hf : g.players.find? fun p => p.id == dbP.id with
    | some memP =>
      by_cases hu : memP.socketId = "unknown"
      · simp [hf, hu, setPlayer_status]
      · simpa [hf, beq_eq_false_iff_ne.mpr hu] using ih
    | none => simp [hf]

/-- Branch classification of `fireShotResolve`: the resulting memory entry
either keeps `game1`'s status or is finished. -/
theorem fireShotResolve_status (s : ServerState) (game1 : Game)
    (shooter target : MemoryPlayer) (fleet : List Ship) (x y : Int) (ok1 ok2 : Bool) :
    ∃ g', (fireShotResolve s game1 shooter target fleet x y ok1 ok2).1.game? = some g' ∧
      (g'.status = game1.status ∨ g'.status = "finished") := by
  simp only [fireShotResolve, switchTurn]
  by_cases h1 : (!ok1) = true
  · rw [if_pos h1]; exact ⟨_, rfl, Or.inl rfl⟩
  · rw [if_neg h1]
    by_cases h2 : (checkShot x y fleet).1.isSunk = true
    · rw [if_pos h2]
      by_cases h3 : (checkShot x y fleet).1.isWin = true
      · rw [if_pos h3]
        by_cases h4 : (!ok2) = true
        · rw [if_pos h4]; exact ⟨_, rfl, Or.inr rfl⟩
        · rw [if_neg h4]; exact ⟨_, rfl, Or.inr rfl⟩
      · rw [if_neg h3]
        by_cases h4 : (!ok2) = true
        · rw [if_pos h4]; exact ⟨_, rfl, Or.inl rfl⟩
        · rw [if_neg h4]; exact ⟨_, rfl, Or.inl rfl⟩
    · rw [if_neg h2]
      by_cases h4 : (!ok2) = true
      · rw [if_pos h4]; exact ⟨_, rfl, Or.inl rfl⟩
      · rw [if_neg h4]; exact ⟨_, rfl, Or.inl rfl⟩

/-- Branch classification of `fire_shot` on a state with a memory entry:
either the state is returned untouched, or the resulting entry keeps the old
status, or the game was active and is now finished. -/
theorem fireShot_cases (s : ServerState) (sock : String) (x y : Int)
    (ok1 ok2 : Bool) (g : Game) (hg : s.game? = some g) :
    (fireShot s sock x y ok1 ok2).1 = s ∨
    ∃ g', (fireShot s sock x y ok1 ok2).1.game? = some g' ∧
      (g'.status = g.status ∨ (g.status = "active" ∧ g'.status = "finished")) := by
  cases hsh : g.players.find? fun p => p.socketId == sock with
  | none =>
    cases hh : g.players.head? with
    | none => left; simp [fireShot, hg, hsh, hh]
    | some p0 => left; simp [fireShot, hg, hsh, hh]
  | some shooter =>
    cases ht : g.players.find? fun p => p.id != shooter.id with
    | none => left; simp [fireShot, hg, hsh, ht]
    | some target =>
      simp only [fireShot, hg, hsh, ht]
      by_cases hst : (g.status != "active") = true
      · rw [if_pos hst]; exact Or.inl rfl
      · rw [if_neg hst]
        have hact : g.status = "active" := by
          simpa [bne_iff_ne] using hst
        by_cases hturn : (g.currentTurn != some shooter.id) = true
        · rw [if_pos hturn]; exact Or.inl rfl
        · rw [if_neg hturn]
          split
          · exact Or.inr ⟨_, rfl, Or.inl rfl⟩
          · rename_i fleet hts
            by_cases hv : (!validateShot x y (shooter.shots.getD [])) = true
            · rw [if_pos hv]; exact Or.inr ⟨_, rfl, Or.inl rfl⟩
            · rw [if_neg hv]
              obtain ⟨g', hg', hstat⟩ := fireShotResolve_status s
                (setPlayer g shooter.id fun p => { p with shots := some (p.shots.getD []) })
                shooter target fleet x y ok1 ok2
              refine Or.inr ⟨g', hg', ?_⟩
              rcases hstat with h | h
              · exact Or.inl (h.trans (setPlayer_status _ _ _))
              · exact Or.inr ⟨hact, h⟩

/-- Branch classification of `joinNewPlayer`: the resulting memory entry is
the given game unchanged, or became `placing_ships` after passing the
fewer-than-two-players guard. -/
theorem joinNewPlayer_cases (dbGame : DbGame) (gameCode newPlayerId sock : String)
    (ok1 ok2 : Bool) (game : Game) :
    ∃ g', (joinNewPlayer dbGame gameCode newPlayerId sock ok1 ok2 game).1.game? = some g' ∧
      (g' = game ∨ (g'.status = "placing_ships" ∧ game.players.length < 2)) := by
  simp only [joinNewPlayer]
  by_cases h1 : 2 ≤ game.players.length
  · rw [if_pos h1]; exact ⟨_, rfl, Or.inl rfl⟩
  · rw [if_neg h1]
    by_cases h2 : (dbGame.status != "WAITING") = true
    · rw [if_pos h2]; exact ⟨_, rfl, Or.inl rfl⟩
    · rw [if_neg h2]
      by_cases h3 : (!ok1) = true
      · rw [if_pos h3]; exact ⟨_, rfl, Or.inl rfl⟩
      · rw [if_neg h3]
        by_cases h4 : (!ok2) = true
        · rw [if_pos h4]; exact ⟨_, rfl, Or.inl rfl⟩
        · rw [if_neg h4]
          exact ⟨_, rfl, Or.inr ⟨rfl, by omega⟩⟩

/-- Branch classification of `join_game` on a state with a memory entry and a
durable row: either the state is returned untouched, or the resulting entry
keeps the old status, or it became `placing_ships` and the old entry had
fewer than two players. -/
theorem joinGame_cases (s : ServerState) (gameCode newPlayerId sock : String)
    (ok1 ok2 : Bool) (g : Game) (dbGame : DbGame)
    (hg : s.game? = some g) (hdb : s.db? = some dbGame) :
    (joinGame s gameCode newPlayerId sock ok1 ok2).1 = s ∨
    ∃ g', (joinGame s gameCode newPlayerId sock ok1 ok2).1.game? = some g' ∧
      (g'.status = g.status ∨
        (g'.status = "placing_ships" ∧ g.players.length < 2)) := by
  have hnew : ∃ g',
      (joinNewPlayer dbGame gameCode newPlayerId sock ok1 ok2 g).1.game? = some g' ∧
      (g'.status = g.status ∨ (g'.status = "placing_ships" ∧ g.players.length < 2)) := by
    obtain ⟨g', hg', hd⟩ := joinNewPlayer_cases dbGame gameCode newPlayerId sock ok1 ok2 g
    refine ⟨g', hg', ?_⟩
    rcases hd with rfl | ⟨h1, h2⟩
    · exact Or.inl rfl
    · exact Or.inr ⟨h1, h2⟩
  simp only [joinGame, hg, hdb, Option.getD_some]
  by_cases hfin : (dbGame.status == "FINISHED") = true
  · rw [if_pos hfin]; exact Or.inl rfl
  · rw [if_neg hfin]
    split
    · split
      · exact Or.inr ⟨_, rfl, Or.inl (setPlayer_status _ _ _)⟩
      · obtain ⟨g', hg', hd⟩ := hnew
        exact Or.inr ⟨g', hg', hd⟩
    · split
      · rename_i jp dbJp game1 heq
        refine Or.inr ⟨_, rfl, Or.inl ?_⟩
        rw [setPlayer_status]
        have hjs := joinScan_status sock g dbGame.players
        rw [heq] at hjs
        exact hjs
      · obtain ⟨g', hg', hd⟩ := hnew
        exact Or.inr ⟨g', hg', hd⟩

/-- Rank of a state whose memory entry is known. -/
theorem stateRank_eq (t : ServerState) (g : Game) (h : t.game? = some g) :
    stateRank t = statusRank g.status := by
  cases t with
  | mk game? db? => cases h; rfl

/-- C5 (amended): under `join_game`, `fire_shot`, `disconnect` and
`create_game`, the session status only moves forward along
waiting → placing_ships → active → finished, for every state satisfying the
reachability invariant that an active or finished session has two bound
players.  (`ships_placed` is excluded: it has no status guard and can move a
finished session back to `active`, see the counterexample.) -/
theorem C5_amended (s : ServerState) (op : Op)
    (hH : ∀ g, s.game? = some g → 2 ≤ statusRank g.status → g.players.length = 2)
    (hop : op.isShipsPlaced = false) :
    stateRank s ≤ stateRank (step s op).1 := by
  cases op with
  | ships_placed sock ships ok1 ok2 tp => exact absurd hop (by simp [Op.isShipsPlaced])
  | create_game genCode dbGameId hostPlayerId sock createOk =>
    cases hcg : s.game? with
    | some g => simp [step, createGame, hcg]
    | none => simp [stateRank, hcg]
  | disconnect sock now =>
    cases hcg : s.game? with
    | none => simp [step, disconnectHandler, hcg]
    | some game =>
      cases hf : game.players.find? fun p => p.socketId == sock with
      | none => simp [step, disconnectHandler, hcg, hf]
      | some p =>
        simp [step, disconnectHandler, hcg, hf, stateRank, setPlayer_status]
  | fire_shot sock x y ok1 ok2 =>
    cases hcg : s.game? with
    | none => simp [stateRank, hcg]
    | some game =>
      have hstep : (step s (.fire_shot sock x y ok1 ok2)).1 =
          (fireShot s sock x y ok1 ok2).1 := rfl
      rw [hstep, stateRank_eq s game hcg]
      rcases fireShot_cases s sock x y ok1 ok2 game hcg with h | ⟨g', hg', hstat⟩
      · rw [h, stateRank_eq s game hcg]
      · rw [stateRank_eq _ g' hg']
        rcases hstat with h | ⟨hact, hfin⟩
        · rw [h]
        · rw [hact, hfin]
          simp [statusRank]
  | join_game gameCode newPlayerId sock ok1 ok2 =>
    cases hdb : s.db? with
    | none => simp [step, joinGame, hdb]
    | some dbGame =>
      cases hcg : s.game? with
      | none =>
        have h0 : stateRank s = 0 := by simp [stateRank, hcg]
        simp [h0]
      | some g =>
        have hstep : (step s (.join_game gameCode newPlayerId sock ok1 ok2)).1 =
            (joinGame s gameCode newPlayerId sock ok1 ok2).1 := rfl
        rw [hstep, stateRank_eq s g hcg]
        rcases joinGame_cases s gameCode newPlayerId sock ok1 ok2 g dbGame hcg hdb with
          h | ⟨g', hg', hstat⟩
        · rw [h, stateRank_eq s g hcg]
        · rw [stateRank_eq _ g' hg']
          rcases hstat with h | ⟨hpl, hlen⟩
          · rw [h]
          · rw [hpl]
            have hr1 : statusRank g.status ≤ 1 := by
              by_contra hgt
              have h2 := hH g hcg (by omega)
              omega
            simpa [statusRank] using hr1

/-- A one-player waiting session used to witness C5 (amended). -/
def c5WGame : Game :=
  { gameCode := "CODE", dbGameId := "g1",
    players := [{ id := "A", socketId := "sA", ships := none, isReady := false,
                  shots := none }],
    status := "waiting", currentTurn := none }

/-- The C5 witness server state. -/
def c5WState : ServerState := { game? := some c5WGame, db? := none }

/-- Closed instance of C5 (amended): a disconnect on the waiting session does
not move the status backward. -/
theorem C5_amended_witness :
    stateRank c5WState ≤ stateRank (step c5WState (.disconnect "sA" "1")).1 :=
  C5_amended c5WState (.disconnect "sA" "1")
    (fun g hgeq => by
      rw [c5WState, Option.some.injEq] at hgeq
      subst hgeq
      intro h2
      exact absurd h2 (by decide))
    rfl

end SinkEmFast
